import Mathlib

/-!
Shallow embedding of the Bay Elevation generator (src/main.py).

Coordinates and lengths are modelled as exact rationals measured in inches
(the source works in EMU via pptx's Inches; Inches is linear, so proportions,
orders and the scale arithmetic are preserved; Python floats are modelled as
exact rationals). Physical dimensions are centimetres, also as rationals.

The source keeps a bay as a dict with a `shelves` list of names and a
`shelf_details` dict keyed by exactly those names in the same order
(main.py lines 176-189 build both from the same `shelf_names` list, and
lines 196-199 store them together). We model the pair as one ordered
association list, so the always-successful dict lookup on line 55 becomes
the second component of the visited pair.
-/

namespace BayElev

/-- ShelfSpec: per-shelf configuration, main.py line 189:
`{'num_bins': num_bins, 'h': bin_h, 'w': bin_w, 'd': bin_d}`. -/
structure ShelfSpec where
  num_bins : Nat
  h : ℚ
  w : ℚ
  d : ℚ
deriving DecidableEq

/-- BayType: one bay record as appended at main.py lines 196-200; the
`shelves` field fuses the name list with the `shelf_details` mapping
(see the module comment). -/
structure BayType where
  name : String
  shelves : List (String × ShelfSpec)
deriving DecidableEq

/-- Abstract draw instruction emitted onto a slide, one constructor per
shape call in the drawing loop of main.py lines 63-101.  Rectangles are
(x, y, w, h) with y increasing downward; lines are endpoint pairs. -/
inductive Instr where
  | shadowRect (x y w h : ℚ)
  | rect (x y w h : ℚ)
  | divider (x y1 y2 : ℚ)
  | label (x y w h : ℚ) (text : String)
  | annot (x y w h : ℚ) (text : String)
  | connector (x1 y1 x2 y2 : ℚ)
deriving DecidableEq

/-- Dimension text of main.py line 90, `H: {h}cm\nW: {w}cm\nD: {d}cm`
(rational rendering stands in for Python float formatting). -/
def dimText (s : ShelfSpec) : String :=
  "H: " ++ toString s.h ++ "cm\n" ++ "W: " ++ toString s.w ++ "cm\n" ++
    "D: " ++ toString s.d ++ "cm"

/-- Drawing area width, main.py line 38: `Inches(8)`. -/
def drawing_area_width : ℚ := 8

/-- Drawing area height, main.py line 39: `Inches(6)`. -/
def drawing_area_height : ℚ := 6

/-- Padding factor, main.py line 44: `* 0.9`. -/
def padding_factor : ℚ := 9 / 10

/-- Fixed inter-shelf gap, main.py line 103: `Inches(0.08)`. -/
def gap : ℚ := 8 / 100

/-- Python builtin `max` on two numbers (first argument kept on ties),
written with an explicit test so the kernel can evaluate it on ℚ. -/
def pymax (a b : ℚ) : ℚ := if a < b then b else a

/-- Python builtin `min` on two numbers (first argument kept on ties),
written with an explicit test so the kernel can evaluate it on ℚ. -/
def pymin (a b : ℚ) : ℚ := if b < a then b else a

theorem pymax_eq_max (a b : ℚ) : pymax a b = max a b := by
  unfold pymax
  rcases lt_or_ge a b with h | h
  · simp [h, max_eq_right h.le]
  · simp [not_lt.mpr h, max_eq_left h]

theorem pymin_eq_min (a b : ℚ) : pymin a b = min a b := by
  unfold pymin
  rcases lt_or_ge b a with h | h
  · simp [h, min_eq_right h.le]
  · simp [not_lt.mpr h, min_eq_left h]

/-- Width in cm of one shelf row: `s['num_bins'] * s['w']` (main.py line 34). -/
def shelf_width_cm (s : ShelfSpec) : ℚ := (s.num_bins : ℚ) * s.w

/-- main.py line 34: `max(s['num_bins'] * s['w'] for s in ...) if ... else 1`. -/
def max_bay_width_cm (b : BayType) : ℚ :=
  match b.shelves with
  | [] => 1
  | p :: ps => (ps.map fun q => shelf_width_cm q.2).foldl pymax (shelf_width_cm p.2)

/-- main.py line 35: `sum(s['h'] for s in ...) if ... else 1`. -/
def max_bay_height_cm (b : BayType) : ℚ :=
  match b.shelves with
  | [] => 1
  | ps => (ps.map fun q => q.2.h).sum

/-- main.py line 42: `drawing_area_width / max_bay_width_cm if max_bay_width_cm > 0 else 0`. -/
def scale_w (b : BayType) : ℚ :=
  if max_bay_width_cm b > 0 then drawing_area_width / max_bay_width_cm b else 0

/-- main.py line 43: `drawing_area_height / max_bay_height_cm if ... else 0`. -/
def scale_h (b : BayType) : ℚ :=
  if max_bay_height_cm b > 0 then drawing_area_height / max_bay_height_cm b else 0

/-- main.py line 44: `scale = min(scale_w, scale_h) * 0.9`. -/
def scale (b : BayType) : ℚ := pymin (scale_w b) (scale_h b) * padding_factor

/-- main.py lines 47-48: `start_x = Inches(6.67) - (max_bay_width_cm * scale) / 2`. -/
def start_x (b : BayType) : ℚ := 667 / 100 - max_bay_width_cm b * scale b / 2

/-- main.py line 49: `start_y = Inches(6.8)`. -/
def start_y : ℚ := 68 / 10

/-- One iteration of the drawing loop body, main.py lines 55-101: shadow
rectangle, main rectangle, bin dividers for `j in range(1, num_bins)`,
shelf label, dimension text box, dashed connector, in emission order. -/
def draw_shelf_instrs (sc sx y : ℚ) (nm : String) (s : ShelfSpec) : List Instr :=
  let bin_h := s.h * sc
  let bin_w := s.w * sc
  let shelf_height := bin_h
  let shelf_width := (s.num_bins : ℚ) * bin_w
  let dim_x := sx + shelf_width + 5 / 10
  let dim_y := y - shelf_height / 2
  [Instr.shadowRect (sx + 5 / 100) (y - shelf_height + 5 / 100) shelf_width shelf_height,
   Instr.rect sx (y - shelf_height) shelf_width shelf_height] ++
  ((List.range' 1 (s.num_bins - 1)).map fun j =>
    Instr.divider (sx + (j : ℚ) * bin_w) (y - shelf_height) y) ++
  [Instr.label (sx - 6 / 10) (y - shelf_height) (5 / 10) shelf_height nm,
   Instr.annot dim_x (dim_y - 25 / 100) (15 / 10) (5 / 10) (dimText s),
   Instr.connector dim_x dim_y (sx + shelf_width) dim_y]

/-- Layout loop over an already-ordered list of visited shelves, carrying
the vertical cursor: main.py lines 51-103 with
`current_y -= shelf_height + Inches(0.08)` after each shelf. -/
def layout_loop (sc sx : ℚ) : ℚ → List (String × ShelfSpec) → List Instr
  | _, [] => []
  | y, (nm, s) :: rest =>
      draw_shelf_instrs sc sx y nm s ++
        layout_loop sc sx (y - (s.h * sc + gap)) rest

/-- Instructions drawn for one bay slide: the loop of main.py line 54
visits `reversed(bay_type['shelves'])` starting at `start_y`. -/
def bay_slide_instrs (b : BayType) : List Instr :=
  layout_loop (scale b) (start_x b) start_y b.shelves.reverse

/-- Document generation, main.py lines 21-103: one (title, instructions)
slide per bay record, in order. -/
def generate_elevation_powerpoint (bays : List BayType) : List (String × List Instr) :=
  bays.map fun b => (b.name, bay_slide_instrs b)

/-- Abstract chart primitive of the matplotlib preview, main.py lines
134-141; y increases upward, rectangles are (x, y, w, h) anchored at
their bottom-left corner. -/
inductive PInstr where
  | rect (x y w h : ℚ)
  | divider (x y1 y2 : ℚ)
  | label (x y : ℚ) (text : String)
deriving DecidableEq

/-- One iteration of the preview loop body, main.py lines 126-141. -/
def preview_shelf_instrs (y : ℚ) (nm : String) (s : ShelfSpec) : List PInstr :=
  let shelf_width := (s.num_bins : ℚ) * s.w
  [PInstr.rect 0 y shelf_width s.h] ++
  ((List.range' 1 (s.num_bins - 1)).map fun j =>
    PInstr.divider ((j : ℚ) * s.w) y (y + s.h)) ++
  [PInstr.label (-5) (y + s.h / 2) nm]

/-- Preview loop, main.py lines 121-143: forward stored order, cursor
`current_y += bin_h`, starting at 0. -/
def preview_loop : ℚ → List (String × ShelfSpec) → List PInstr
  | _, [] => []
  | y, (nm, s) :: rest =>
      preview_shelf_instrs y nm s ++ preview_loop (y + s.h) rest

/-- Live preview, main.py lines 111-149: returns no figure when the bay
has no shelves (line 115), else the chart primitives from origin 0. -/
def draw_bay_preview (b : BayType) : Option (List PInstr) :=
  if b.shelves = [] then none else some (preview_loop 0 b.shelves)

/-- Raw per-bay form state before collection: the entered name and the
shelf configurations (main.py lines 174-189). -/
structure RawBayInput where
  name : String
  shelves : List (String × ShelfSpec)
deriving DecidableEq

/-- Python str.strip: drop leading and trailing whitespace. -/
def py_strip (s : String) : String :=
  String.mk (((s.data.dropWhile Char.isWhitespace).reverse.dropWhile
    Char.isWhitespace).reverse)

/-- Collection of `bay_types_data`, main.py lines 195-200: a bay is
appended only when `bay_name.strip()` is truthy (a nonempty string),
storing the stripped name. -/
def collect_bay_types (raw : List RawBayInput) : List BayType :=
  raw.filterMap fun r =>
    if py_strip r.name = "" then none
    else some { name := py_strip r.name, shelves := r.shelves }

/-- Button-handler validation, main.py line 215:
`any(not bay['name'] for bay in bay_types_data)` (an empty string is the
only falsy value a stored name can be). -/
def generate_blocked (bays : List BayType) : Bool :=
  bays.any fun b => b.name = ""

/-- Button handler outcome, main.py lines 214-228: `none` when validation
blocks generation, otherwise the generated document. -/
def generate_button (raw : List RawBayInput) : Option (List (String × List Instr)) :=
  if generate_blocked (collect_bay_types raw) then none
  else some (generate_elevation_powerpoint (collect_bay_types raw))

/-! Observation helpers over instruction lists. -/

/-- Count of dimension text boxes in an instruction list. -/
def annotCount (l : List Instr) : Nat :=
  l.countP fun i => match i with | Instr.annot .. => true | _ => false

/-- Count of main (container) rectangles in an instruction list. -/
def rectCount (l : List Instr) : Nat :=
  l.countP fun i => match i with | Instr.rect .. => true | _ => false

/-- Count of bin divider lines in an instruction list. -/
def dividerCount (l : List Instr) : Nat :=
  l.countP fun i => match i with | Instr.divider .. => true | _ => false

/-- Texts of shelf labels, in emission order. -/
def labelTexts (l : List Instr) : List String :=
  l.filterMap fun i => match i with | Instr.label _ _ _ _ t => some t | _ => none

/-- Main container rectangles (x, y, w, h), in emission order. -/
def containerRects (l : List Instr) : List (ℚ × ℚ × ℚ × ℚ) :=
  l.filterMap fun i => match i with | Instr.rect x y w h => some (x, y, w, h) | _ => none

/-- Texts of preview shelf labels, in emission order. -/
def previewLabelTexts (l : List PInstr) : List String :=
  l.filterMap fun i => match i with | PInstr.label _ _ t => some t | _ => none

/-- Bottom-edge y coordinates of preview rectangles, in emission order. -/
def previewRectYs (l : List PInstr) : List ℚ :=
  l.filterMap fun i => match i with | PInstr.rect _ y _ _ => some y | _ => none

/-- Test bay of spec section 8: two shelves A, B with identical specs
num_bins = 3, h = w = d = 10. -/
def testBay : BayType :=
  { name := "Test"
    shelves := [("A", ⟨3, 10, 10, 10⟩), ("B", ⟨3, 10, 10, 10⟩)] }

/-! Per-shelf and whole-loop counting lemmas. -/

theorem annotCount_append (l1 l2 : List Instr) :
    annotCount (l1 ++ l2) = annotCount l1 + annotCount l2 :=
  List.countP_append _ _ _

theorem annotCount_draw (sc sx y : ℚ) (nm : String) (s : ShelfSpec) :
    annotCount (draw_shelf_instrs sc sx y nm s) = 1 := by
  simp [draw_shelf_instrs, annotCount, List.countP_append, List.countP_map,
    List.countP_cons, Function.comp]

theorem annotCount_layout (sc sx : ℚ) :
    ∀ (l : List (String × ShelfSpec)) (y : ℚ),
      annotCount (layout_loop sc sx y l) = l.length := by
  intro l
  induction l with
  | nil => intro y; rfl
  | cons p rest ih =>
      intro y
      rw [layout_loop, annotCount_append, annotCount_draw, ih]
      simp [Nat.add_comm]

theorem rectCount_append (l1 l2 : List Instr) :
    rectCount (l1 ++ l2) = rectCount l1 + rectCount l2 :=
  List.countP_append _ _ _

theorem rectCount_draw (sc sx y : ℚ) (nm : String) (s : ShelfSpec) :
    rectCount (draw_shelf_instrs sc sx y nm s) = 1 := by
  simp [draw_shelf_instrs, rectCount, List.countP_append, List.countP_map,
    List.countP_cons, Function.comp]

theorem rectCount_layout (sc sx : ℚ) :
    ∀ (l : List (String × ShelfSpec)) (y : ℚ),
      rectCount (layout_loop sc sx y l) = l.length := by
  intro l
  induction l with
  | nil => intro y; rfl
  | cons p rest ih =>
      intro y
      rw [layout_loop, rectCount_append, rectCount_draw, ih]
      simp [Nat.add_comm]

theorem dividerCount_append (l1 l2 : List Instr) :
    dividerCount (l1 ++ l2) = dividerCount l1 + dividerCount l2 :=
  List.countP_append _ _ _

theorem countP_map_all_true {α γ : Type} (p : γ → Bool) (f : α → γ)
    (hf : ∀ j, p (f j) = true) (js : List α) :
    List.countP p (js.map f) = js.length := by
  induction js with
  | nil => rfl
  | cons j rest ih => simp [List.countP_cons, hf, ih]

theorem sum_map_one {α : Type} (l : List α) :
    (l.map fun _ => (1 : Nat)).sum = l.length := by
  induction l with
  | nil => rfl
  | cons a r ih => simp [ih, Nat.add_comm]

theorem dividerCount_draw (sc sx y : ℚ) (nm : String) (s : ShelfSpec) :
    dividerCount (draw_shelf_instrs sc sx y nm s) = s.num_bins - 1 := by
  simp only [draw_shelf_instrs, dividerCount, List.countP_append, List.countP_cons,
    List.countP_nil]
  rw [countP_map_all_true _ _ (fun j => rfl)]
  simp [Function.comp_def, sum_map_one, List.length_range']

theorem dividerCount_layout (sc sx : ℚ) :
    ∀ (l : List (String × ShelfSpec)) (y : ℚ),
      dividerCount (layout_loop sc sx y l) =
        (l.map fun p => p.2.num_bins - 1).sum := by
  intro l
  induction l with
  | nil => intro y; rfl
  | cons p rest ih =>
      intro y
      rw [layout_loop, dividerCount_append, dividerCount_draw, ih]
      simp [Nat.add_comm]

/-- C1, claim as stated, refuted: two consecutive shelves of `testBay`
have identical specs, yet the drawing loop emits a dimension text box
for both of them (main.py lines 87-101 run unconditionally on every
iteration), so the pair gets two dimension annotations, not one. -/
theorem C1_cex :
    (testBay.shelves.get? 0).map Prod.snd = (testBay.shelves.get? 1).map Prod.snd ∧
    annotCount (bay_slide_instrs testBay) = 2 ∧ (2 : Nat) ≠ 1 := by
  refine ⟨by decide, by decide, by decide⟩

/-- C1 amended: there is no suppression rule in the code; the layout
emits exactly one dimension Annotation per visited shelf, whether or not
the previous shelf has an identical ShelfSpec. -/
theorem C1_amended (b : BayType) :
    annotCount (bay_slide_instrs b) = b.shelves.length := by
  rw [bay_slide_instrs, annotCount_layout, List.length_reverse]

/-- C5, claim as stated, refuted: for the two-shelf, three-bins-each
`testBay`, the loop emits 2 container rectangles but only 4 bin divider
lines (`range(1, num_bins)` on main.py line 75 yields `num_bins - 1`
dividers per shelf), not the claimed sum of num_bins = 6 bin-level
primitives. -/
theorem C5_cex :
    rectCount (bay_slide_instrs testBay) = 2 ∧
    (testBay.shelves.map fun p => p.2.num_bins).sum = 6 ∧
    dividerCount (bay_slide_instrs testBay) = 4 ∧ (4 : Nat) ≠ 6 := by
  refine ⟨by decide, by decide, by decide, by decide⟩

/-- C5 amended: a bay with N shelves yields exactly N container
rectangles and, summed over shelves, sum of (num_bins - 1) divider
lines; in particular a shelf with num_bins = 1 contributes its container
rectangle and zero dividers. -/
theorem C5_amended (b : BayType) :
    rectCount (bay_slide_instrs b) = b.shelves.length ∧
    dividerCount (bay_slide_instrs b) =
      (b.shelves.map fun p => p.2.num_bins - 1).sum := by
  constructor
  · rw [bay_slide_instrs, rectCount_layout, List.length_reverse]
  · rw [bay_slide_instrs, dividerCount_layout, List.map_reverse,
      List.sum_reverse]

/-! Label and container-rectangle extraction lemmas. -/

theorem filterMap_map_none {α β γ : Type} (p : γ → Option β) (f : α → γ)
    (hf : ∀ j, p (f j) = none) (js : List α) :
    List.filterMap p (js.map f) = [] := by
  induction js with
  | nil => rfl
  | cons j rest ih => simp [List.filterMap_cons, hf, ih]

theorem labelTexts_draw (sc sx y : ℚ) (nm : String) (s : ShelfSpec) :
    labelTexts (draw_shelf_instrs sc sx y nm s) = [nm] := by
  simp only [draw_shelf_instrs, labelTexts, List.filterMap_append,
    List.filterMap_cons, List.filterMap_nil]
  rw [filterMap_map_none _ _ (fun j => rfl)]
  rfl

theorem labelTexts_layout (sc sx : ℚ) :
    ∀ (l : List (String × ShelfSpec)) (y : ℚ),
      labelTexts (layout_loop sc sx y l) = l.map Prod.fst := by
  intro l
  induction l with
  | nil => intro y; rfl
  | cons p rest ih =>
      intro y
      rw [layout_loop, labelTexts, List.filterMap_append]
      rw [show List.filterMap _ (draw_shelf_instrs sc sx y p.1 p.2) =
        labelTexts (draw_shelf_instrs sc sx y p.1 p.2) from rfl]
      rw [labelTexts_draw]
      rw [show List.filterMap _ (layout_loop sc sx (y - (p.2.h * sc + gap)) rest) =
        labelTexts (layout_loop sc sx (y - (p.2.h * sc + gap)) rest) from rfl]
      rw [ih]
      rfl

/-- Symbolic form of the container rectangles produced by the layout
loop: one box per visited shelf at the running cursor. -/
def container_boxes (sc sx : ℚ) : ℚ → List (String × ShelfSpec) → List (ℚ × ℚ × ℚ × ℚ)
  | _, [] => []
  | y, (_, s) :: rest =>
      (sx, y - s.h * sc, (s.num_bins : ℚ) * (s.w * sc), s.h * sc) ::
        container_boxes sc sx (y - (s.h * sc + gap)) rest

theorem containerRects_draw (sc sx y : ℚ) (nm : String) (s : ShelfSpec) :
    containerRects (draw_shelf_instrs sc sx y nm s) =
      [(sx, y - s.h * sc, (s.num_bins : ℚ) * (s.w * sc), s.h * sc)] := by
  simp only [draw_shelf_instrs, containerRects, List.filterMap_append,
    List.filterMap_cons, List.filterMap_nil]
  rw [filterMap_map_none _ _ (fun j => rfl)]
  rfl

theorem containerRects_layout (sc sx : ℚ) :
    ∀ (l : List (String × ShelfSpec)) (y : ℚ),
      containerRects (layout_loop sc sx y l) = container_boxes sc sx y l := by
  intro l
  induction l with
  | nil => intro y; rfl
  | cons p rest ih =>
      intro y
      rw [layout_loop, containerRects, List.filterMap_append]
      rw [show List.filterMap _ (draw_shelf_instrs sc sx y p.1 p.2) =
        containerRects (draw_shelf_instrs sc sx y p.1 p.2) from rfl]
      rw [containerRects_draw]
      rw [show List.filterMap _ (layout_loop sc sx (y - (p.2.h * sc + gap)) rest) =
        containerRects (layout_loop sc sx (y - (p.2.h * sc + gap)) rest) from rfl]
      rw [ih]
      rfl

theorem scale_w_nonneg (b : BayType) : 0 ≤ scale_w b := by
  unfold scale_w
  split
  · exact div_nonneg (by norm_num [drawing_area_width]) (le_of_lt (by assumption))
  · exact le_refl 0

theorem scale_h_nonneg (b : BayType) : 0 ≤ scale_h b := by
  unfold scale_h
  split
  · exact div_nonneg (by norm_num [drawing_area_height]) (le_of_lt (by assumption))
  · exact le_refl 0

theorem scale_nonneg (b : BayType) : 0 ≤ scale b := by
  rw [scale, pymin_eq_min]
  exact mul_nonneg (le_min (scale_w_nonneg b) (scale_h_nonneg b))
    (by norm_num [padding_factor])

theorem chain_container_boxes (sc sx : ℚ) (hsc : 0 ≤ sc) :
    ∀ (l : List (String × ShelfSpec)) (y : ℚ), (∀ p ∈ l, 0 ≤ p.2.h) →
      List.Chain' (fun r r' : ℚ × ℚ × ℚ × ℚ => r'.2.1 + r'.2.2.2 < r.2.1 + r.2.2.2)
        (container_boxes sc sx y l) := by
  intro l
  induction l with
  | nil =>
      intro y _
      simp [container_boxes]
  | cons p rest ih =>
      intro y hl
      rw [container_boxes, List.chain'_cons']
      constructor
      · intro z hz
        cases rest with
        | nil => simp [container_boxes] at hz
        | cons q qs =>
            rw [container_boxes] at hz
            simp only [List.head?_cons, Option.mem_def, Option.some.injEq] at hz
            subst hz
            have hp : 0 ≤ p.2.h := hl p (List.mem_cons_self _ _)
            have hps : 0 ≤ p.2.h * sc := mul_nonneg hp hsc
            have hg : (0 : ℚ) < gap := by norm_num [gap]
            simp only []
            linarith
      · exact ih _ (fun q hq => hl q (List.mem_cons_of_mem _ hq))

/-- C2: the drawing loop visits the stored shelves in reverse: the label
texts come out as the reversed stored name sequence, and the container
rectangles are stacked strictly upward (each later rectangle's bottom
edge, y + h in the y-down page frame, lies strictly above the previous
one's), so the first shelf drawn is the stored list's last element and
sits at the bottom. -/
theorem C2_reverse_traversal (b : BayType)
    (hh : ∀ p ∈ b.shelves, 0 ≤ p.2.h) :
    labelTexts (bay_slide_instrs b) = (b.shelves.map Prod.fst).reverse ∧
    List.Chain' (fun r r' : ℚ × ℚ × ℚ × ℚ => r'.2.1 + r'.2.2.2 < r.2.1 + r.2.2.2)
      (containerRects (bay_slide_instrs b)) := by
  constructor
  · rw [bay_slide_instrs, labelTexts_layout, List.map_reverse]
  · rw [bay_slide_instrs, containerRects_layout]
    exact chain_container_boxes _ _ (scale_nonneg b) _ _
      (fun p hp => hh p (List.mem_reverse.mp hp))

/-- Closed instance of C2's theorem at the two-shelf test bay. -/
theorem C2_witness :
    labelTexts (bay_slide_instrs testBay) = (testBay.shelves.map Prod.fst).reverse ∧
    List.Chain' (fun r r' : ℚ × ℚ × ℚ × ℚ => r'.2.1 + r'.2.2.2 < r.2.1 + r.2.2.2)
      (containerRects (bay_slide_instrs testBay)) :=
  C2_reverse_traversal testBay (by decide)

theorem max_width_testBay : max_bay_width_cm testBay = 30 := by
  norm_num [max_bay_width_cm, testBay, shelf_width_cm, pymax]

theorem scale_testBay : scale testBay = 6 / 25 := by
  norm_num [scale, scale_w, scale_h, max_bay_width_cm, max_bay_height_cm,
    shelf_width_cm, pymin, pymax, testBay, drawing_area_width,
    drawing_area_height, padding_factor]

theorem start_x_testBay : start_x testBay = 307 / 100 := by
  rw [start_x, max_width_testBay, scale_testBay]
  norm_num

theorem testBay_reverse :
    testBay.shelves.reverse =
      [("B", ⟨3, 10, 10, 10⟩), ("A", ⟨3, 10, 10, 10⟩)] := by decide

theorem containerRects_testBay :
    containerRects (bay_slide_instrs testBay) =
      [(307 / 100, 22 / 5, 36 / 5, 12 / 5), (307 / 100, 48 / 25, 36 / 5, 12 / 5)] := by
  rw [bay_slide_instrs, containerRects_layout, testBay_reverse,
    scale_testBay, start_x_testBay]
  norm_num [container_boxes, start_y, gap]

/-- C3, claim as stated, refuted on the Test bay: the loop reverses the
stored order, so shelf B (the last stored element) is drawn first at the
bottom, not shelf A; moreover the second rectangle's top edge is
start_y - 2*h*scale - gap = 48/25, not the claimed start_y - 2*h*scale
= 2, because a fixed 0.08 in gap is inserted between shelves. -/
theorem C3_cex :
    (labelTexts (bay_slide_instrs testBay)).head? = some "B" ∧
    some "B" ≠ some "A" ∧
    containerRects (bay_slide_instrs testBay) =
      [(307 / 100, 22 / 5, 36 / 5, 12 / 5), (307 / 100, 48 / 25, 36 / 5, 12 / 5)] ∧
    (48 / 25 : ℚ) ≠ start_y - 2 * (10 * scale testBay) := by
  refine ⟨by decide, by decide, containerRects_testBay, ?_⟩
  rw [scale_testBay, start_y]
  norm_num

/-- C3 amended: shelf B (last stored) is drawn first and placed at the
bottom, its container occupying y from start_y - h*scale to start_y;
shelf A is placed above with its container occupying
start_y - 2*h*scale - gap up to start_y - h*scale - gap (the loop
advances by shelf_height + the fixed 0.08 in gap). -/
theorem C3_amended :
    labelTexts (bay_slide_instrs testBay) = ["B", "A"] ∧
    containerRects (bay_slide_instrs testBay) =
      [(start_x testBay, start_y - 10 * scale testBay,
        3 * (10 * scale testBay), 10 * scale testBay),
       (start_x testBay, start_y - (10 * scale testBay + gap) - 10 * scale testBay,
        3 * (10 * scale testBay), 10 * scale testBay)] := by
  constructor
  · decide
  · rw [containerRects_testBay, scale_testBay, start_x_testBay]
    norm_num [start_y, gap]

/-! Membership facts about pymax folds, for the centering claim. -/

theorem le_foldl_pymax : ∀ (l : List ℚ) (a : ℚ), a ≤ l.foldl pymax a := by
  intro l
  induction l with
  | nil => intro a; exact le_refl a
  | cons x xs ih =>
      intro a
      calc a ≤ pymax a x := by rw [pymax_eq_max]; exact le_max_left a x
        _ ≤ (x :: xs).foldl pymax a := by rw [List.foldl_cons]; exact ih (pymax a x)

theorem mem_le_foldl_pymax : ∀ (l : List ℚ) (a x : ℚ), x ∈ l → x ≤ l.foldl pymax a := by
  intro l
  induction l with
  | nil => intro a x hx; cases hx
  | cons z zs ih =>
      intro a x hx
      rw [List.foldl_cons]
      rcases List.mem_cons.mp hx with h | h
      · subst h
        exact le_trans (by rw [pymax_eq_max]; exact le_max_right a x)
          (le_foldl_pymax zs (pymax a x))
      · exact ih (pymax a z) x h

theorem shelf_width_le_max (b : BayType) (p : String × ShelfSpec)
    (hp : p ∈ b.shelves) : shelf_width_cm p.2 ≤ max_bay_width_cm b := by
  rcases hb : b.shelves with _ | ⟨q, qs⟩
  · rw [hb] at hp; cases hp
  · simp only [max_bay_width_cm, hb]
    rw [hb] at hp
    rcases List.mem_cons.mp hp with h | h
    · subst h; exact le_foldl_pymax _ _
    · exact mem_le_foldl_pymax _ _ _ (List.mem_map_of_mem _ h)

theorem container_boxes_shape (sc sx : ℚ) :
    ∀ (l : List (String × ShelfSpec)) (y : ℚ) r, r ∈ container_boxes sc sx y l →
      r.1 = sx ∧ ∃ p ∈ l, r.2.2.1 = (p.2.num_bins : ℚ) * (p.2.w * sc) := by
  intro l
  induction l with
  | nil => intro y r hr; simp [container_boxes] at hr
  | cons p rest ih =>
      intro y r hr
      rw [container_boxes] at hr
      rcases List.mem_cons.mp hr with h | h
      · subst h
        exact ⟨rfl, p, List.mem_cons_self _ _, rfl⟩
      · obtain ⟨hx, q, hq, hwid⟩ := ih _ r h
        exact ⟨hx, q, List.mem_cons_of_mem _ hq, hwid⟩

/-- C10: every container rectangle of a bay slide has its left edge at
the common start_x = 6.67 in - (max_bay_width_cm * scale) / 2; no
rectangle is wider than max_bay_width_cm * scale, and the full-width row
is centered about x = 6.67 in since start_x + (total width) / 2 = 6.67 in. -/
theorem C10_centered (b : BayType) (hne : b.shelves ≠ []) :
    (∀ r ∈ containerRects (bay_slide_instrs b),
        r.1 = start_x b ∧ r.2.2.1 ≤ max_bay_width_cm b * scale b) ∧
    start_x b = 667 / 100 - max_bay_width_cm b * scale b / 2 ∧
    start_x b + max_bay_width_cm b * scale b / 2 = 667 / 100 := by
  refine ⟨?_, rfl, by rw [start_x]; ring⟩
  intro r hr
  rw [bay_slide_instrs, containerRects_layout] at hr
  obtain ⟨hx, p, hp, hwid⟩ := container_boxes_shape _ _ _ _ r hr
  refine ⟨hx, ?_⟩
  rw [hwid]
  have h1 : shelf_width_cm p.2 ≤ max_bay_width_cm b :=
    shelf_width_le_max b p (List.mem_reverse.mp hp)
  have h2 : 0 ≤ scale b := scale_nonneg b
  calc (p.2.num_bins : ℚ) * (p.2.w * scale b)
      = shelf_width_cm p.2 * scale b := by rw [shelf_width_cm]; ring
    _ ≤ max_bay_width_cm b * scale b := mul_le_mul_of_nonneg_right h1 h2

/-- Closed instance of C10's theorem at the two-shelf test bay. -/
theorem C10_witness :
    (∀ r ∈ containerRects (bay_slide_instrs testBay),
        r.1 = start_x testBay ∧ r.2.2.1 ≤ max_bay_width_cm testBay * scale testBay) ∧
    start_x testBay = 667 / 100 - max_bay_width_cm testBay * scale testBay / 2 ∧
    start_x testBay + max_bay_width_cm testBay * scale testBay / 2 = 667 / 100 :=
  C10_centered testBay (by decide)

/-! Preview-side extraction lemmas and the cross-renderer claim. -/

theorem previewLabelTexts_shelf (y : ℚ) (nm : String) (s : ShelfSpec) :
    previewLabelTexts (preview_shelf_instrs y nm s) = [nm] := by
  simp only [preview_shelf_instrs, previewLabelTexts, List.filterMap_append,
    List.filterMap_cons, List.filterMap_nil]
  rw [filterMap_map_none _ _ (fun j => rfl)]
  rfl

theorem previewLabelTexts_loop :
    ∀ (l : List (String × ShelfSpec)) (y : ℚ),
      previewLabelTexts (preview_loop y l) = l.map Prod.fst := by
  intro l
  induction l with
  | nil => intro y; rfl
  | cons p rest ih =>
      intro y
      rw [preview_loop, previewLabelTexts, List.filterMap_append]
      rw [show List.filterMap _ (preview_shelf_instrs y p.1 p.2) =
        previewLabelTexts (preview_shelf_instrs y p.1 p.2) from rfl]
      rw [previewLabelTexts_shelf]
      rw [show List.filterMap _ (preview_loop (y + p.2.h) rest) =
        previewLabelTexts (preview_loop (y + p.2.h) rest) from rfl]
      rw [ih]
      rfl

theorem previewRectYs_shelf (y : ℚ) (nm : String) (s : ShelfSpec) :
    previewRectYs (preview_shelf_instrs y nm s) = [y] := by
  simp only [preview_shelf_instrs, previewRectYs, List.filterMap_append,
    List.filterMap_cons, List.filterMap_nil]
  rw [filterMap_map_none _ _ (fun j => rfl)]
  rfl

/-- Bottom edges of the preview rectangles: the running cursor values. -/
def ytrace : ℚ → List (String × ShelfSpec) → List ℚ
  | _, [] => []
  | y, (_, s) :: rest => y :: ytrace (y + s.h) rest

theorem previewRectYs_loop :
    ∀ (l : List (String × ShelfSpec)) (y : ℚ),
      previewRectYs (preview_loop y l) = ytrace y l := by
  intro l
  induction l with
  | nil => intro y; rfl
  | cons p rest ih =>
      intro y
      rw [preview_loop, previewRectYs, List.filterMap_append]
      rw [show List.filterMap _ (preview_shelf_instrs y p.1 p.2) =
        previewRectYs (preview_shelf_instrs y p.1 p.2) from rfl]
      rw [previewRectYs_shelf]
      rw [show List.filterMap _ (preview_loop (y + p.2.h) rest) =
        previewRectYs (preview_loop (y + p.2.h) rest) from rfl]
      rw [ih]
      rfl

theorem chain_ytrace :
    ∀ (l : List (String × ShelfSpec)), (∀ p ∈ l, 0 < p.2.h) →
      ∀ (y : ℚ), List.Chain' (fun a b : ℚ => a < b) (ytrace y l) := by
  intro l
  induction l with
  | nil => intro _ y; simp [ytrace]
  | cons p rest ih =>
      intro hl y
      rw [ytrace, List.chain'_cons']
      constructor
      · intro z hz
        cases rest with
        | nil => simp [ytrace] at hz
        | cons q qs =>
            rw [ytrace] at hz
            simp only [List.head?_cons, Option.mem_def, Option.some.injEq] at hz
            subst hz
            have hp : 0 < p.2.h := hl p (List.mem_cons_self _ _)
            linarith
      · exact ih (fun q hq => hl q (List.mem_cons_of_mem _ hq)) _

/-- Second bay for the cross-renderer comparison: two one-bin shelves of
different heights (A: 10 cm, B: 20 cm). -/
def bay4 : BayType :=
  { name := "Two"
    shelves := [("A", ⟨1, 10, 10, 10⟩), ("B", ⟨1, 20, 10, 10⟩)] }

/-- C4, claim as stated, refuted: both renderers emit shelves bottom-up
(preview rectangle bottoms 0 then 10, going up; document rectangles
stacked upward per their y coordinates), but the preview visits the
stored order A, B while the document visits the reversed order B, A, so
the same shelves appear in opposite vertical orders and the layouts are
not geometrically similar. -/
theorem C4_cex :
    previewLabelTexts (preview_loop 0 bay4.shelves) = ["A", "B"] ∧
    previewRectYs (preview_loop 0 bay4.shelves) = [0, 10] ∧
    labelTexts (bay_slide_instrs bay4) = ["B", "A"] ∧
    containerRects (bay_slide_instrs bay4) =
      [(577 / 100, 16 / 5, 9 / 5, 18 / 5), (577 / 100, 33 / 25, 9 / 5, 9 / 5)] ∧
    (["A", "B"] : List String) ≠ ["B", "A"] := by
  have hsc : scale bay4 = 9 / 50 := by
    norm_num [scale, scale_w, scale_h, max_bay_width_cm, max_bay_height_cm,
      shelf_width_cm, pymin, pymax, bay4, drawing_area_width,
      drawing_area_height, padding_factor]
  have hsx : start_x bay4 = 577 / 100 := by
    rw [start_x, hsc]
    norm_num [max_bay_width_cm, bay4, shelf_width_cm, pymax]
  have hrev : bay4.shelves.reverse =
      [("B", ⟨1, 20, 10, 10⟩), ("A", ⟨1, 10, 10, 10⟩)] := by decide
  refine ⟨by decide, ?_, by decide, ?_, by decide⟩
  · rw [previewRectYs_loop]
    norm_num [ytrace, bay4]
  · rw [bay_slide_instrs, containerRects_layout, hrev, hsc, hsx]
    norm_num [container_boxes, start_y, gap]

/-- C4 amended: the two renderings agree on the set of shelves and each
stacks them bottom-up, but in opposite traversal orders: the document's
bottom-to-top label sequence is the reverse of the preview's
bottom-to-top label sequence (the preview stacks the stored order
upward from 0, the document stacks the reversed order upward from
start_y, additionally separated by the fixed 0.08 in gap). -/
theorem C4_amended (b : BayType) (hh : ∀ p ∈ b.shelves, 0 < p.2.h) :
    labelTexts (bay_slide_instrs b) =
      (previewLabelTexts (preview_loop 0 b.shelves)).reverse ∧
    List.Chain' (fun a b : ℚ => a < b) (previewRectYs (preview_loop 0 b.shelves)) ∧
    List.Chain' (fun r r' : ℚ × ℚ × ℚ × ℚ => r'.2.1 + r'.2.2.2 < r.2.1 + r.2.2.2)
      (containerRects (bay_slide_instrs b)) := by
  refine ⟨?_, ?_, ?_⟩
  · rw [bay_slide_instrs, labelTexts_layout, previewLabelTexts_loop,
      List.map_reverse]
  · rw [previewRectYs_loop]
    exact chain_ytrace _ hh _
  · rw [bay_slide_instrs, containerRects_layout]
    exact chain_container_boxes _ _ (scale_nonneg b) _ _
      (fun p hp => (hh p (List.mem_reverse.mp hp)).le)

/-- Closed instance of C4's amended theorem at bay4. -/
theorem C4_witness :
    labelTexts (bay_slide_instrs bay4) =
      (previewLabelTexts (preview_loop 0 bay4.shelves)).reverse ∧
    List.Chain' (fun a b : ℚ => a < b) (previewRectYs (preview_loop 0 bay4.shelves)) ∧
    List.Chain' (fun r r' : ℚ × ℚ × ℚ × ℚ => r'.2.1 + r'.2.2.2 < r.2.1 + r.2.2.2)
      (containerRects (bay_slide_instrs bay4)) :=
  C4_amended bay4 (by decide)

/-! Scale-fit bounds. -/

theorem width_scale_le (b : BayType) : max_bay_width_cm b * scale b ≤ 36 / 5 := by
  rw [scale, pymin_eq_min]
  by_cases hw : max_bay_width_cm b > 0
  · have h1 : min (scale_w b) (scale_h b) ≤ scale_w b := min_le_left _ _
    have h2 : scale_w b = drawing_area_width / max_bay_width_cm b := by
      rw [scale_w, if_pos hw]
    have h3 : max_bay_width_cm b * (min (scale_w b) (scale_h b) * padding_factor)
        ≤ max_bay_width_cm b * (scale_w b * padding_factor) := by
      apply mul_le_mul_of_nonneg_left _ hw.le
      exact mul_le_mul_of_nonneg_right h1 (by norm_num [padding_factor])
    have h4 : max_bay_width_cm b * (scale_w b * padding_factor) = 36 / 5 := by
      rw [h2, drawing_area_width, padding_factor]
      field_simp
      ring
    linarith
  · have hz : scale_w b = 0 := by rw [scale_w, if_neg hw]
    have h0 : 0 ≤ min (scale_w b) (scale_h b) :=
      le_min (scale_w_nonneg b) (scale_h_nonneg b)
    have hle : min (scale_w b) (scale_h b) ≤ 0 := by
      rw [← hz]; exact min_le_left _ _
    have hmin : min (scale_w b) (scale_h b) = 0 := le_antisymm hle h0
    rw [hmin, zero_mul, mul_zero]
    norm_num

theorem height_scale_le (b : BayType) : max_bay_height_cm b * scale b ≤ 27 / 5 := by
  rw [scale, pymin_eq_min]
  by_cases hh : max_bay_height_cm b > 0
  · have h1 : min (scale_w b) (scale_h b) ≤ scale_h b := min_le_right _ _
    have h2 : scale_h b = drawing_area_height / max_bay_height_cm b := by
      rw [scale_h, if_pos hh]
    have h3 : max_bay_height_cm b * (min (scale_w b) (scale_h b) * padding_factor)
        ≤ max_bay_height_cm b * (scale_h b * padding_factor) := by
      apply mul_le_mul_of_nonneg_left _ hh.le
      exact mul_le_mul_of_nonneg_right h1 (by norm_num [padding_factor])
    have h4 : max_bay_height_cm b * (scale_h b * padding_factor) = 27 / 5 := by
      rw [h2, drawing_area_height, padding_factor]
      field_simp
      ring
    linarith
  · have hz : scale_h b = 0 := by rw [scale_h, if_neg hh]
    have h0 : 0 ≤ min (scale_w b) (scale_h b) :=
      le_min (scale_w_nonneg b) (scale_h_nonneg b)
    have hle : min (scale_w b) (scale_h b) ≤ 0 := by
      rw [← hz]; exact min_le_right _ _
    have hmin : min (scale_w b) (scale_h b) = 0 := le_antisymm hle h0
    rw [hmin, zero_mul, mul_zero]
    norm_num

/-- C6: scaling every shelf by the computed scale keeps the bay inside
the 8 in x 6 in drawing area: the widest scaled row is at most the
drawing area width (indeed at most 0.9 of it, hence also within
width/padding_factor), and the total scaled height is at most the
drawing area height (indeed at most 0.9 of it). -/
theorem C6_fits (b : BayType) (hne : b.shelves ≠ []) :
    max_bay_width_cm b * scale b ≤ drawing_area_width ∧
    max_bay_height_cm b * scale b ≤ drawing_area_height ∧
    max_bay_width_cm b * scale b ≤ (1 / padding_factor) * drawing_area_width ∧
    max_bay_height_cm b * scale b ≤ (1 / padding_factor) * drawing_area_height := by
  have h1 := width_scale_le b
  have h2 := height_scale_le b
  rw [drawing_area_width, drawing_area_height, padding_factor]
  norm_num
  exact ⟨by linarith, by linarith, by linarith, by linarith⟩

/-- Closed instance of C6's theorem at the two-shelf test bay. -/
theorem C6_witness :
    max_bay_width_cm testBay * scale testBay ≤ drawing_area_width ∧
    max_bay_height_cm testBay * scale testBay ≤ drawing_area_height ∧
    max_bay_width_cm testBay * scale testBay ≤ (1 / padding_factor) * drawing_area_width ∧
    max_bay_height_cm testBay * scale testBay ≤ (1 / padding_factor) * drawing_area_height :=
  C6_fits testBay (by decide)

/-! Empty-bay behaviour. -/

/-- A bay with no shelves (and hence empty shelf_details). -/
def emptyBay : BayType := { name := "Empty", shelves := [] }

theorem scale_of_empty (b : BayType) (he : b.shelves = []) : scale b = 27 / 5 := by
  have hw : max_bay_width_cm b = 1 := by
    simp [max_bay_width_cm, he]
  have hh : max_bay_height_cm b = 1 := by
    simp [max_bay_height_cm, he]
  rw [scale, scale_w, scale_h, hw, hh]
  norm_num [pymin, drawing_area_width, drawing_area_height, padding_factor]

/-- C7, claim as stated, refuted: for an empty shelf_details the code
falls back to denominators of 1 (main.py lines 34-35, `else 1`), so the
computed scale is min(8, 6) * 0.9 = 5.4 drawing units per cm, not 0. -/
theorem C7_cex : scale emptyBay = 27 / 5 ∧ (27 / 5 : ℚ) ≠ 0 := by
  refine ⟨scale_of_empty emptyBay rfl, by norm_num⟩

/-- C7 amended: for a bay with empty shelf_details the loop emits no
draw instructions and no error, but the computed scale is 27/5 = 5.4
(the dimension fallbacks of 1 keep the divisions defined), not 0. -/
theorem C7_amended (b : BayType) (he : b.shelves = []) :
    bay_slide_instrs b = [] ∧ scale b = 27 / 5 := by
  constructor
  · rw [bay_slide_instrs, he]
    rfl
  · exact scale_of_empty b he

/-- Closed instance of C7's amended theorem at the empty bay. -/
theorem C7_witness : bay_slide_instrs emptyBay = [] ∧ scale emptyBay = 27 / 5 :=
  C7_amended emptyBay rfl

/-! Monotonicity of the scale in the physical dimensions. -/

theorem pymax_le_pymax {a a' x x' : ℚ} (ha : a ≤ a') (hx : x ≤ x') :
    pymax a x ≤ pymax a' x' := by
  rw [pymax_eq_max, pymax_eq_max]
  exact max_le_max ha hx

theorem foldl_pymax_mono :
    ∀ {l l' : List ℚ}, List.Forall₂ (fun a b : ℚ => a ≤ b) l l' →
      ∀ {a a' : ℚ}, a ≤ a' → l.foldl pymax a ≤ l'.foldl pymax a' := by
  intro l l' h
  induction h with
  | nil => intro a a' ha; exact ha
  | cons hxy htail ih =>
      intro a a' ha
      rw [List.foldl_cons, List.foldl_cons]
      exact ih (pymax_le_pymax ha hxy)

theorem sum_le_sum_forall₂ :
    ∀ {l l' : List ℚ}, List.Forall₂ (fun a b : ℚ => a ≤ b) l l' → l.sum ≤ l'.sum := by
  intro l l' h
  induction h with
  | nil => exact le_refl 0
  | cons hxy htail ih =>
      rw [List.sum_cons, List.sum_cons]
      exact add_le_add hxy ih

theorem forall₂_le_refl (l : List ℚ) : List.Forall₂ (fun a b : ℚ => a ≤ b) l l := by
  induction l with
  | nil => exact List.Forall₂.nil
  | cons x xs ih => exact List.Forall₂.cons (le_refl x) ih

theorem forall₂_le_map_set (f : String × ShelfSpec → ℚ) :
    ∀ (l : List (String × ShelfSpec)) (i : Nat) (p' : String × ShelfSpec),
      (∀ p, l.get? i = some p → f p ≤ f p') →
      List.Forall₂ (fun a b : ℚ => a ≤ b) (l.map f) ((l.set i p').map f) := by
  intro l
  induction l with
  | nil =>
      intro i p' _
      exact List.Forall₂.nil
  | cons q qs ih =>
      intro i p' hle
      cases i with
      | zero =>
          rw [List.set_cons_zero, List.map_cons, List.map_cons]
          exact List.Forall₂.cons (hle q rfl) (forall₂_le_refl _)
      | succ j =>
          rw [List.set_cons_succ, List.map_cons, List.map_cons]
          exact List.Forall₂.cons (le_refl (f q)) (ih j p' (fun p hp => hle p hp))

theorem max_width_le_set (b : BayType) (i : Nat) (p' : String × ShelfSpec)
    (hle : ∀ p, b.shelves.get? i = some p → shelf_width_cm p.2 ≤ shelf_width_cm p'.2) :
    max_bay_width_cm b ≤ max_bay_width_cm { b with shelves := b.shelves.set i p' } := by
  rcases hb : b.shelves with _ | ⟨q, qs⟩
  · simp [max_bay_width_cm, hb]
  · have h2 := forall₂_le_map_set (fun p => shelf_width_cm p.2) (q :: qs) i p'
      (fun p hp => hle p (by rw [hb]; exact hp))
    cases i with
    | zero =>
        rw [List.set_cons_zero, List.map_cons, List.map_cons] at h2
        cases h2 with
        | cons hqq ht =>
            simp only [max_bay_width_cm, hb, List.set_cons_zero]
            exact foldl_pymax_mono ht hqq
    | succ j =>
        rw [List.set_cons_succ, List.map_cons, List.map_cons] at h2
        cases h2 with
        | cons hqq ht =>
            simp only [max_bay_width_cm, hb, List.set_cons_succ]
            exact foldl_pymax_mono ht hqq

theorem max_height_le_set (b : BayType) (i : Nat) (p' : String × ShelfSpec)
    (hle : ∀ p, b.shelves.get? i = some p → p.2.h ≤ p'.2.h) :
    max_bay_height_cm b ≤ max_bay_height_cm { b with shelves := b.shelves.set i p' } := by
  rcases hb : b.shelves with _ | ⟨q, qs⟩
  · simp [max_bay_height_cm, hb]
  · have h2 := forall₂_le_map_set (fun p => p.2.h) (q :: qs) i p'
      (fun p hp => hle p (by rw [hb]; exact hp))
    cases i with
    | zero =>
        simp only [max_bay_height_cm, hb, List.set_cons_zero]
        rw [List.set_cons_zero] at h2
        exact sum_le_sum_forall₂ h2
    | succ j =>
        simp only [max_bay_height_cm, hb, List.set_cons_succ]
        rw [List.set_cons_succ] at h2
        exact sum_le_sum_forall₂ h2

theorem max_height_pos (b : BayType) (hne : b.shelves ≠ [])
    (hpos : ∀ p ∈ b.shelves, 0 < p.2.h) : 0 < max_bay_height_cm b := by
  rcases hb : b.shelves with _ | ⟨q, qs⟩
  · exact absurd hb hne
  · simp only [max_bay_height_cm, hb]
    apply List.sum_pos
    · intro x hx
      obtain ⟨p, hp, hfx⟩ := List.mem_map.mp hx
      rw [← hfx]
      exact hpos p (by rw [hb]; exact hp)
    · simp

/-- C9: with positive dimensions throughout, enlarging one shelf's
num_bins, h, or w (all else equal) never increases the computed scale. -/
theorem C9_scale_antitone (b : BayType) (i : Nat) (nm : String) (s s' : ShelfSpec)
    (hi : b.shelves.get? i = some (nm, s))
    (hpos : ∀ p ∈ b.shelves, 0 < p.2.h ∧ 0 < p.2.w ∧ 1 ≤ p.2.num_bins)
    (hn : s.num_bins ≤ s'.num_bins) (hh : s.h ≤ s'.h) (hw : s.w ≤ s'.w) :
    scale { b with shelves := b.shelves.set i (nm, s') } ≤ scale b := by
  have hmem : (nm, s) ∈ b.shelves := List.get?_mem hi
  have hws : 0 < s.w := (hpos _ hmem).2.1
  have hwid : shelf_width_cm s ≤ shelf_width_cm s' := by
    rw [shelf_width_cm, shelf_width_cm]
    exact mul_le_mul (by exact_mod_cast hn) hw hws.le (by positivity)
  have hW : max_bay_width_cm b ≤
      max_bay_width_cm { b with shelves := b.shelves.set i (nm, s') } :=
    max_width_le_set b i (nm, s')
      (fun p hp => by rw [hi] at hp; cases hp; exact hwid)
  have hH : max_bay_height_cm b ≤
      max_bay_height_cm { b with shelves := b.shelves.set i (nm, s') } :=
    max_height_le_set b i (nm, s')
      (fun p hp => by rw [hi] at hp; cases hp; exact hh)
  have hne : b.shelves ≠ [] := by
    intro hcon
    rw [hcon] at hmem
    cases hmem
  have hWpos : 0 < max_bay_width_cm b := by
    have hq := hpos _ hmem
    have hqw : 0 < shelf_width_cm (nm, s).2 := by
      rw [shelf_width_cm]
      have h1 : (0 : ℚ) < ((nm, s).2.num_bins : ℚ) := by
        exact_mod_cast lt_of_lt_of_le Nat.zero_lt_one hq.2.2
      exact mul_pos h1 hq.2.1
    exact lt_of_lt_of_le hqw (shelf_width_le_max b (nm, s) hmem)
  have hHpos : 0 < max_bay_height_cm b :=
    max_height_pos b hne (fun p hp => (hpos p hp).1)
  have hWpos' : 0 < max_bay_width_cm { b with shelves := b.shelves.set i (nm, s') } :=
    lt_of_lt_of_le hWpos hW
  have hHpos' : 0 < max_bay_height_cm { b with shelves := b.shelves.set i (nm, s') } :=
    lt_of_lt_of_le hHpos hH
  have hsw : scale_w { b with shelves := b.shelves.set i (nm, s') } ≤ scale_w b := by
    rw [scale_w, scale_w, if_pos hWpos, if_pos hWpos']
    rw [drawing_area_width]
    gcongr
  have hsh : scale_h { b with shelves := b.shelves.set i (nm, s') } ≤ scale_h b := by
    rw [scale_h, scale_h, if_pos hHpos, if_pos hHpos']
    rw [drawing_area_height]
    gcongr
  rw [scale, scale, pymin_eq_min, pymin_eq_min]
  exact mul_le_mul_of_nonneg_right (min_le_min hsw hsh)
    (by norm_num [padding_factor])

/-- Closed instance of C9's theorem: doubling shelf A's bin height in
the test bay does not increase the scale. -/
theorem C9_witness :
    scale { testBay with shelves := testBay.shelves.set 0 ("A", ⟨3, 20, 10, 10⟩) }
      ≤ scale testBay :=
  C9_scale_antitone testBay 0 "A" ⟨3, 10, 10, 10⟩ ⟨3, 20, 10, 10⟩
    (by decide) (by decide) (by decide) (by decide) (by decide)

/-! Validation at the generate button. -/

theorem collected_name_ne_empty (raw : List RawBayInput) :
    ∀ b ∈ collect_bay_types raw, b.name ≠ "" := by
  intro b hb
  rw [collect_bay_types] at hb
  obtain ⟨r, _, hfr⟩ := List.mem_filterMap.mp hb
  by_cases h : py_strip r.name = ""
  · rw [if_pos h] at hfr
    cases hfr
  · rw [if_neg h] at hfr
    injection hfr with h2
    rw [← h2]
    exact h

/-- Input with one invalid (whitespace-only name) bay and one valid bay. -/
def rawPair : List RawBayInput :=
  [{ name := "   ", shelves := [("A", ⟨2, 10, 10, 10⟩)] },
   { name := "Ok", shelves := [("A", ⟨2, 10, 10, 10⟩)] }]

/-- C8, claim as stated, refuted: rawPair contains a bay whose name is
blank (invalid), yet generation is not blocked: the blank-named bay is
silently dropped while collecting `bay_types_data` (main.py line 195),
the button's validation never sees it, and a document containing the
remaining valid bay is produced. -/
theorem C8_cex :
    py_strip "   " = "" ∧
    ((collect_bay_types rawPair).map fun b => b.name) = ["Ok"] ∧
    generate_button rawPair ≠ none := by
  refine ⟨by decide, by decide, by decide⟩

/-- C8 amended: a bay type with a blank name never reaches the collected
input (it is dropped at collection time), so the button's validation
check finds no empty name, generation always proceeds, and the document
contains exactly the bays with non-blank names. -/
theorem C8_amended (raw : List RawBayInput) :
    generate_blocked (collect_bay_types raw) = false ∧
    generate_button raw =
      some (generate_elevation_powerpoint (collect_bay_types raw)) := by
  have h : generate_blocked (collect_bay_types raw) = false := by
    rw [generate_blocked]
    rw [List.any_eq_false]
    intro b hb
    simp only [decide_eq_true_eq]
    exact collected_name_ne_empty raw b hb
  refine ⟨h, ?_⟩
  rw [generate_button, h]
  simp

end BayElev
